import Mathlib

/-!
Shallow embedding of `src/geomdl/multi.py` (NURBS-Python spline geometry
containers).  The module defines `AbstractContainer` and three concrete
subclasses (`CurveContainer`, `SurfaceContainer`, `VolumeContainer`) that
differ only in their Python class identity.  Stateful Python methods are
embedded as explicit state-passing functions on a `Container` record; a
raised `GeomdlError` is an `Option GErr` component of the result, paired
with the (possibly partially mutated) post-state, because Python mutates
`self` in place and an exception leaves in place any mutation already
performed.
-/

set_option autoImplicit false

namespace Multi

/-- A point of an evaluated-point sequence (coordinates kept abstract as
integers; no claim depends on the numeric type). -/
abbrev Point := List Int

/-- Kind tag of a single spline geometry (curve, surface or volume). -/
inductive GKind where
  | curve
  | surface
  | volume
deriving DecidableEq, Repr

/-- A leaf spline geometry as the container observes it: something that
is an instance of `SplineGeometry` and exposes `evalpts`, `bbox` (one
(min, max) extent pair per axis) and `data` (opaque, modelled as `Nat`). -/
structure SplineGeom where
  kind : GKind
  evalpts : List Point
  bbox : List (Int × Int)
  data : Nat
deriving DecidableEq, Repr

/-- Concrete container class (`self.__class__` in the Python source):
`CurveContainer`, `SurfaceContainer` or `VolumeContainer`. -/
inductive ContainerKind where
  | curveC
  | surfaceC
  | volumeC
deriving DecidableEq, Repr

/-- The mutable state of an `AbstractContainer` instance: its concrete
class, `self._geoms`, `self._cache` entry for `evalpts`, and
`self._iter_index`. -/
structure Container where
  ckind : ContainerKind
  geoms : List SplineGeom
  cache : List Point
  iterIndex : Nat
deriving DecidableEq, Repr

/-- Error raised by the code: the single `GeomdlError` of `add` and
`__add__`, which the spec calls `TypeMismatch`. -/
inductive GErr where
  | typeMismatch
deriving DecidableEq, Repr

/-- An argument passed to `add`: a single geometry, a bulk sequence
(`GeomdlTypeSequence`, e.g. list or tuple, of arbitrary objects), a
container (its class tag and its `_geoms`), or any other object. -/
inductive AddItem where
  | geom : SplineGeom → AddItem
  | seq : List AddItem → AddItem
  | cont : ContainerKind → List SplineGeom → AddItem
  | other : AddItem

/-- Modelled from the spec: `Geometry.reset` (base class, not under
`src/`) clears the cache variables, here the single `evalpts` slot
("invalidation ... clears the evalpts cache"). -/
def reset (c : Container) : Container :=
  { c with cache := [] }

/-- One `self._geoms.append(geom)` followed by `self.reset()`: the body
of `add` on a single `SplineGeometry` argument. -/
def addGeom (c : Container) (g : SplineGeom) : Container :=
  reset { c with geoms := c.geoms ++ [g] }

/-- The loop `for g in geom` of `add` when `geom` is a container of the
same class: each element is a `SplineGeometry`, so each recursive call
appends and resets. -/
def addGeomList (c : Container) : List SplineGeom → Container
  | [] => c
  | g :: rest => addGeomList (addGeom c g) rest

mutual

/-- Embedding of `AbstractContainer.add`.  Branches exactly as the
source does: same-class containers and bulk sequences are iterated and
recursively added, a `SplineGeometry` is appended, anything else raises
`GeomdlError`; every successful branch ends with `self.reset()`. -/
def add (c : Container) : AddItem → Container × Option GErr
  | .geom g => (addGeom c g, none)
  | .cont k gs =>
      if k = c.ckind then
        (reset (addGeomList c gs), none)
      else
        (c, some GErr.typeMismatch)
  | .other => (c, some GErr.typeMismatch)
  | .seq items =>
      let r := addLoop c items
      match r.2 with
      | some e => (r.1, some e)
      | none => (reset r.1, none)

/-- The loop `for g in geom` of `add` over a bulk sequence: a raise
inside the loop propagates, keeping the mutations already made.  The
same function also models a sequence of separate top-level `add` calls,
stopped at the first failure. -/
def addLoop (c : Container) : List AddItem → Container × Option GErr
  | [] => (c, none)
  | i :: rest =>
      let r := add c i
      match r.2 with
      | some e => (r.1, some e)
      | none => addLoop r.1 rest

end

/-- Embedding of `AbstractContainer.__init__` for a given concrete
class: start with empty `_geoms`, empty cache and cursor 0, then
`self.add(arg)` for each positional argument in order. -/
def newContainer (k : ContainerKind) (args : List AddItem) : Container × Option GErr :=
  addLoop ⟨k, [], [], 0⟩ args

/-- Constructor call `CurveContainer(*args)`. -/
def CurveContainer (args : List AddItem) : Container × Option GErr :=
  newContainer ContainerKind.curveC args

/-- Constructor call `SurfaceContainer(*args)`. -/
def SurfaceContainer (args : List AddItem) : Container × Option GErr :=
  newContainer ContainerKind.surfaceC args

/-- Constructor call `VolumeContainer(*args)`. -/
def VolumeContainer (args : List AddItem) : Container × Option GErr :=
  newContainer ContainerKind.volumeC args

/-- Embedding of `AbstractContainer.__add__`: requires `other` to be an
instance of the receiver's class, then `self.add(other)` and returns
`self` (the mutated receiver). -/
def addOp (a b : Container) : Container × Option GErr :=
  if b.ckind = a.ckind then
    add a (AddItem.cont b.ckind b.geoms)
  else
    (a, some GErr.typeMismatch)

/-- Embedding of `AbstractContainer.__len__`: `len(self._geoms)`. -/
def lengthC (c : Container) : Nat :=
  c.geoms.length

/-- Python list indexing as `self._geoms[index]` performs it: indices in
`[0, len)` read directly, indices in `[-len, 0)` wrap around from the
end, anything else raises `IndexError` (`none`). -/
def pyGet {α : Type} (l : List α) (i : Int) : Option α :=
  if 0 ≤ i then
    l.get? i.toNat
  else
    let j : Int := (l.length : Int) + i
    if 0 ≤ j then l.get? j.toNat else none

/-- Embedding of `AbstractContainer.__getitem__`: `self._geoms[index]`. -/
def getItem (c : Container) (i : Int) : Option SplineGeom :=
  pyGet c.geoms i

/-- Embedding of the `AbstractContainer.evalpts` property: when the
cached list is falsy (empty), extend it with every element's `evalpts`
in order; return the cached list.  The result records the returned
value, the post-state, and whether the recomputation branch ran. -/
def evalptsGet (c : Container) : List Point × Container × Bool :=
  if c.cache.isEmpty then
    let nc := c.geoms.foldl (fun acc g => acc ++ g.evalpts) c.cache
    (nc, { c with cache := nc }, true)
  else
    (c.cache, c, false)

/-- The ordered concatenation of every element's evaluated points,
starting from an empty accumulator. -/
def concatEvalpts (gs : List SplineGeom) : List Point :=
  gs.foldl (fun acc g => acc ++ g.evalpts) []

/-- Embedding of `AbstractContainer.__next__`: read
`self._geoms[self._iter_index]`; on `IndexError` raise `StopIteration`
(`none`, cursor untouched), otherwise advance the cursor and yield the
element. -/
def nextItem (c : Container) : Option SplineGeom × Container :=
  match c.geoms.get? c.iterIndex with
  | some g => (some g, { c with iterIndex := c.iterIndex + 1 })
  | none => (none, c)

/-- Modelled from the spec: `Geometry.__iter__` (base class, not under
`src/`) restarts iteration, resetting the cursor ("a lazy, restartable
forward sequence"). -/
def iterStart (c : Container) : Container :=
  { c with iterIndex := 0 }

/-- Driving `__next__` to exhaustion: the list a full `for` loop over
the container yields, paired with the container state it leaves. -/
def runIter (c : Container) : List SplineGeom × Container :=
  if hlt : c.iterIndex < c.geoms.length then
    let r := runIter { c with iterIndex := c.iterIndex + 1 }
    (c.geoms.get ⟨c.iterIndex, hlt⟩ :: r.1, r.2)
  else
    ([], c)
termination_by c.geoms.length - c.iterIndex
decreasing_by simp; omega

/-- Embedding of `AbstractContainer.__reversed__`:
`reversed(self._geoms)`, the elements in reverse order; the container
itself is untouched. -/
def reversedItems (c : Container) : List SplineGeom :=
  c.geoms.reverse

/-- Per-axis merge of two boxes: minimum of the lower bounds and
maximum of the upper bounds, axis by axis. -/
def combineBox (b1 b2 : List (Int × Int)) : List (Int × Int) :=
  List.zipWith (fun p q => (min p.1 q.1, max p.2 q.2)) b1 b2

/-- Modelled from the spec: `utilities.evaluate_bounding_box` (not under
`src/`) derives one enclosing box from the pooled per-axis extent pairs
by "taking, per axis, the minimum of all lower bounds and the maximum of
all upper bounds across the pooled extents" (empty pool: empty box). -/
def evaluate_bounding_box (boxes : List (List (Int × Int))) : List (Int × Int) :=
  match boxes with
  | [] => []
  | b :: rest => rest.foldl combineBox b

/-- Embedding of the `AbstractContainer.bbox` property: pool every
element's own bounding box and derive the enclosing box; recomputed on
every read. -/
def bbox (c : Container) : List (Int × Int) :=
  evaluate_bounding_box (c.geoms.map SplineGeom.bbox)

/-- Embedding of the `AbstractContainer.data` property: the tuple of
every element's own `data`, in order; recomputed on every read. -/
def dataC (c : Container) : List Nat :=
  c.geoms.map SplineGeom.data

mutual

/-- The leaf geometries an argument contributes, in insertion order. -/
def leaves : AddItem → List SplineGeom
  | .geom g => [g]
  | .cont _ gs => gs
  | .other => []
  | .seq items => leavesList items

/-- Leaves of a bulk sequence, concatenated in order. -/
def leavesList : List AddItem → List SplineGeom
  | [] => []
  | i :: rest => leaves i ++ leavesList rest

end

/-- A concrete curve geometry used in witnesses. -/
def gC1 : SplineGeom := ⟨GKind.curve, [[0, 0]], [(0, 1)], 1⟩

/-- A second concrete curve geometry used in witnesses. -/
def gC2 : SplineGeom := ⟨GKind.curve, [[1, 1]], [(2, 3)], 2⟩

/-- A concrete surface geometry used in witnesses. -/
def gS1 : SplineGeom := ⟨GKind.surface, [[5, 5]], [(0, 2), (0, 2)], 3⟩

/-- A freshly constructed, empty `CurveContainer`. -/
def emptyCurveC : Container := (CurveContainer []).1

/-- A curve container holding `gC1` whose evalpts cache has been
populated by one `evalpts` read. -/
def cachedCurveC : Container :=
  (evalptsGet (add emptyCurveC (AddItem.geom gC1)).1).2.1

/-- A bulk sequence whose first item is a valid curve and whose second
item is a foreign, non-geometry object. -/
def badBulk : AddItem := AddItem.seq [AddItem.geom gC2, AddItem.other]

/-- A curve container holding the single geometry `gC1`. -/
def oneCurveC : Container := (add emptyCurveC (AddItem.geom gC1)).1

/-- Three insertion arguments with nesting: a single geometry, a
same-kind container of two geometries, and a bulk sequence containing a
geometry and a nested bulk sequence. -/
def nestedItems : List AddItem :=
  [AddItem.geom gC1,
    AddItem.cont ContainerKind.curveC [gC2, gC1],
    AddItem.seq [AddItem.geom gC2, AddItem.seq [AddItem.geom gC1]]]

/-- A curve container with three elements. -/
def cA : Container :=
  (CurveContainer [AddItem.geom gC1, AddItem.geom gC2, AddItem.geom gC1]).1

/-- A curve container with two elements. -/
def cB : Container :=
  (CurveContainer [AddItem.geom gC2, AddItem.geom gC1]).1

/-- A surface container with one element. -/
def sfC : Container := (SurfaceContainer [AddItem.geom gS1]).1

/-- A curve container holding exactly one element. -/
def singletonC : Container := (CurveContainer [AddItem.geom gC1]).1

@[simp] theorem reset_geoms (c : Container) : (reset c).geoms = c.geoms := rfl

@[simp] theorem reset_cache (c : Container) : (reset c).cache = [] := rfl

@[simp] theorem reset_ckind (c : Container) : (reset c).ckind = c.ckind := rfl

theorem addGeomList_geoms (gs : List SplineGeom) :
    ∀ c : Container, (addGeomList c gs).geoms = c.geoms ++ gs := by
  induction gs with
  | nil => intro c; simp [addGeomList]
  | cons g rest ih => intro c; simp [addGeomList, ih, addGeom]

theorem addGeomList_ckind (gs : List SplineGeom) :
    ∀ c : Container, (addGeomList c gs).ckind = c.ckind := by
  induction gs with
  | nil => intro c; rfl
  | cons g rest ih => intro c; simp [addGeomList, ih, addGeom]

theorem addGeomList_iterIndex (gs : List SplineGeom) :
    ∀ c : Container, (addGeomList c gs).iterIndex = c.iterIndex := by
  induction gs with
  | nil => intro c; rfl
  | cons g rest ih => intro c; simp [addGeomList, ih, addGeom, reset]

theorem add_ok_geoms :
    ∀ (c : Container) (a : AddItem), (add c a).2 = none →
      (add c a).1.geoms = c.geoms ++ leaves a := by
  apply add.induct
    (fun c a => (add c a).2 = none → (add c a).1.geoms = c.geoms ++ leaves a)
    (fun c items => (addLoop c items).2 = none →
      (addLoop c items).1.geoms = c.geoms ++ leavesList items)
  case _ => intro c g _; simp [add, addGeom, leaves]
  case _ => intro c gs _; simp [add, addGeomList_geoms, leaves]
  case _ => intro c k gs hk h; simp [add, hk] at h
  case _ => intro c h; simp [add] at h
  case _ =>
    intro c items r e hre _ h
    replace hre : (addLoop c items).2 = some e := hre
    simp [add, hre] at h
  case _ =>
    intro c items r hre ih _
    replace hre : (addLoop c items).2 = none := hre
    simp [add, hre, leaves, ih hre]
  case _ => intro c _; simp [addLoop, leavesList]
  case _ =>
    intro c i rest r e hre _ h
    replace hre : (add c i).2 = some e := hre
    simp [addLoop, hre] at h
  case _ =>
    intro c i rest r hre ih1 ih2 h
    replace hre : (add c i).2 = none := hre
    replace ih2 : (addLoop (add c i).1 rest).2 = none →
      (addLoop (add c i).1 rest).1.geoms = (add c i).1.geoms ++ leavesList rest := ih2
    have hl : addLoop c (i :: rest) = addLoop (add c i).1 rest := by
      simp [addLoop, hre]
    rw [hl] at h ⊢
    rw [ih2 h, ih1 hre, leavesList, List.append_assoc]

theorem addLoop_ok_geoms (items : List AddItem) :
    ∀ c : Container, (addLoop c items).2 = none →
      (addLoop c items).1.geoms = c.geoms ++ leavesList items := by
  induction items with
  | nil => intro c _; simp [addLoop, leavesList]
  | cons i rest ih =>
      intro c h
      cases hre : (add c i).2 with
      | some e => simp [addLoop, hre] at h
      | none =>
          have hl : addLoop c (i :: rest) = addLoop (add c i).1 rest := by
            simp [addLoop, hre]
          rw [hl] at h ⊢
          rw [ih _ h, add_ok_geoms c i hre, leavesList, List.append_assoc]

theorem add_ok_cache (c : Container) (a : AddItem) (h : (add c a).2 = none) :
    (add c a).1.cache = [] := by
  cases a with
  | geom g => simp [add, addGeom]
  | cont k gs =>
      by_cases hk : k = c.ckind
      · simp [add, hk]
      · simp [add, hk] at h
  | other => simp [add] at h
  | seq items =>
      cases hre : (addLoop c items).2 with
      | some e => simp [add, hre] at h
      | none => simp [add, hre]

theorem add_fail_nonseq_unchanged (c : Container) (a : AddItem)
    (hseq : ∀ l, a ≠ AddItem.seq l) (h : (add c a).2 ≠ none) :
    (add c a).1 = c := by
  cases a with
  | geom g => simp [add] at h
  | cont k gs =>
      by_cases hk : k = c.ckind
      · simp [add, hk] at h
      · simp [add, hk]
  | other => simp [add]
  | seq items => exact absurd rfl (hseq items)

theorem runIter_spec :
    ∀ c : Container, (runIter c).1 = c.geoms.drop c.iterIndex ∧
      (runIter c).2.geoms = c.geoms ∧ (runIter c).2.cache = c.cache ∧
      (runIter c).2.ckind = c.ckind := by
  intro c
  induction c using runIter.induct with
  | case1 c hlt ih =>
      have h1 : runIter c =
          (c.geoms.get ⟨c.iterIndex, hlt⟩ :: (runIter { c with iterIndex := c.iterIndex + 1 }).1,
            (runIter { c with iterIndex := c.iterIndex + 1 }).2) := by
        rw [runIter]
        rw [dif_pos hlt]
      obtain ⟨ih1, ih2, ih3, ih4⟩ := ih
      rw [h1]
      refine ⟨?_, by simpa using ih2, by simpa using ih3, by simpa using ih4⟩
      show c.geoms.get ⟨c.iterIndex, hlt⟩ :: (runIter { c with iterIndex := c.iterIndex + 1 }).1
          = c.geoms.drop c.iterIndex
      rw [List.drop_eq_getElem_cons hlt]
      simp only [List.get_eq_getElem]
      simp at ih1
      rw [ih1]
  | case2 c hge =>
      rw [runIter, dif_neg hge]
      have hlen : c.geoms.length ≤ c.iterIndex := Nat.le_of_not_lt hge
      simp [List.drop_eq_nil_of_le hlen]

theorem evalptsGet_empty_cache (c : Container) (h : c.cache = []) :
    evalptsGet c = (concatEvalpts c.geoms,
      { c with cache := concatEvalpts c.geoms }, true) := by
  simp [evalptsGet, h, concatEvalpts]

theorem evalptsGet_full_cache (c : Container) (h : c.cache ≠ []) :
    evalptsGet c = (c.cache, c, false) := by
  have hb : c.cache.isEmpty = false := by
    cases hc : c.cache with
    | nil => exact absurd hc h
    | cons x xs => rfl
  simp [evalptsGet, hb]

theorem evalptsGet_value_stable (c : Container) :
    (evalptsGet (evalptsGet c).2.1).1 = (evalptsGet c).1 := by
  by_cases h : c.cache = []
  · rw [evalptsGet_empty_cache c h]
    by_cases h2 : concatEvalpts c.geoms = []
    · rw [evalptsGet_empty_cache _ (by simpa using h2)]
    · rw [evalptsGet_full_cache _ (by simpa using h2)]
  · rw [evalptsGet_full_cache c h, evalptsGet_full_cache c h]

theorem evalptsGet_second_hit (c : Container) (h : (evalptsGet c).1 ≠ []) :
    (evalptsGet (evalptsGet c).2.1).2.2 = false := by
  by_cases hc : c.cache = []
  · rw [evalptsGet_empty_cache c hc] at h ⊢
    simp only at h ⊢
    rw [evalptsGet_full_cache _ (by simpa using h)]
  · rw [evalptsGet_full_cache c hc, evalptsGet_full_cache c hc]

theorem evalptsGet_after_add (c : Container) (a : AddItem)
    (h : (add c a).2 = none) :
    evalptsGet (add c a).1 =
      (concatEvalpts (add c a).1.geoms,
        { (add c a).1 with cache := concatEvalpts (add c a).1.geoms }, true) :=
  evalptsGet_empty_cache _ (add_ok_cache c a h)

theorem pyGet_nat {α : Type} (l : List α) (i : Nat) :
    pyGet l (i : Int) = l.get? i := by
  simp [pyGet]

theorem pyGet_length {α : Type} (l : List α) :
    pyGet l (l.length : Int) = none := by
  rw [pyGet_nat]
  exact List.get?_eq_none.mpr le_rfl

theorem pyGet_neg {α : Type} (l : List α) (k : Nat) (h1 : 1 ≤ k)
    (h2 : k ≤ l.length) :
    pyGet l (-(k : Int)) = l.get? (l.length - k) := by
  unfold pyGet
  have hn : ¬ ((0:Int) ≤ -(k : Int)) := by omega
  rw [if_neg hn]
  have hj : (0:Int) ≤ (l.length : Int) + -(k : Int) := by omega
  rw [if_pos hj]
  congr 1
  omega

theorem foldl_append_evalpts (gs : List SplineGeom) :
    ∀ acc : List Point,
      gs.foldl (fun acc g => acc ++ g.evalpts) acc =
        acc ++ (gs.map SplineGeom.evalpts).flatten := by
  induction gs with
  | nil => intro acc; simp
  | cons g rest ih => intro acc; simp [ih]

theorem concatEvalpts_eq_flatten (gs : List SplineGeom) :
    concatEvalpts gs = (gs.map SplineGeom.evalpts).flatten := by
  simpa using foldl_append_evalpts gs []

/-- C1: inserting the surface geometry `gS1` into a freshly built
`CurveContainer` raises nothing and appends it: the typed container does
not reject foreign-kind spline geometries, contrary to the claim that it
fails with `TypeMismatch` and appends nothing. -/
theorem C1_counterexample :
    (add emptyCurveC (AddItem.geom gS1)).2 = none ∧
    (add emptyCurveC (AddItem.geom gS1)).1.geoms = [gS1] := by
  decide

/-- C1 (amended): `add` checks only that a single argument is a
`SplineGeometry`; every spline geometry of any kind is accepted and
appended by every container, with no per-kind narrowing. -/
theorem C1_theorem (c : Container) (g : SplineGeom) :
    (add c (AddItem.geom g)).2 = none ∧
    (add c (AddItem.geom g)).1.geoms = c.geoms ++ [g] := by
  simp [add, addGeom]

/-- C2: on a curve container holding `gC1` with a populated evalpts
cache, a bulk insert whose first item is a valid curve and whose second
item is a foreign object fails with `TypeMismatch`, yet afterwards the
valid first item has been appended and the cache has been cleared: the
failed call is not effect-free, contrary to the claim. -/
theorem C2_counterexample :
    (add cachedCurveC badBulk).2 = some GErr.typeMismatch ∧
    (add cachedCurveC badBulk).1.geoms ≠ cachedCurveC.geoms ∧
    (add cachedCurveC badBulk).1.cache ≠ cachedCurveC.cache := by
  decide

/-- C2 (amended): a failing insertion of any non-sequence argument (a
single geometry, a container, or a foreign object) leaves the container,
its element list and its cache included, exactly as before the call;
only a failing bulk sequence can mutate before raising. -/
theorem C2_theorem (c : Container) (a : AddItem)
    (hseq : ∀ l, a ≠ AddItem.seq l) (h : (add c a).2 ≠ none) :
    (add c a).1 = c :=
  add_fail_nonseq_unchanged c a hseq h

theorem C2_witness :
    (∀ l, AddItem.other ≠ AddItem.seq l) ∧
    (add cachedCurveC AddItem.other).2 ≠ none ∧
    (add cachedCurveC AddItem.other).1 = cachedCurveC := by
  have hseq : ∀ l, AddItem.other ≠ AddItem.seq l := by
    intro l h
    cases h
  exact ⟨hseq, by decide, C2_theorem cachedCurveC AddItem.other hseq (by decide)⟩

/-- C3: any sequence of successful `add` calls appends exactly the leaf
geometries of the inserted arguments, flattened recursively in order, so
`len` afterwards counts leaves, never top-level arguments; elements are
always leaf geometries, since `_geoms` only ever receives
`SplineGeometry` values (in the embedding, `geoms` holds `SplineGeom`
leaves by construction). -/
theorem C3_theorem (c : Container) (items : List AddItem)
    (h : (addLoop c items).2 = none) :
    (addLoop c items).1.geoms = c.geoms ++ leavesList items ∧
    lengthC (addLoop c items).1 = lengthC c + (leavesList items).length := by
  have hg := addLoop_ok_geoms items c h
  exact ⟨hg, by simp [lengthC, hg]⟩

theorem C3_witness :
    (addLoop emptyCurveC nestedItems).2 = none ∧
    (addLoop emptyCurveC nestedItems).1.geoms =
      emptyCurveC.geoms ++ leavesList nestedItems ∧
    lengthC (addLoop emptyCurveC nestedItems).1 =
      lengthC emptyCurveC + (leavesList nestedItems).length ∧
    lengthC (addLoop emptyCurveC nestedItems).1 = 5 := by
  refine ⟨by decide, ?_, ?_, by decide⟩
  · exact (C3_theorem emptyCurveC nestedItems (by decide)).1
  · exact (C3_theorem emptyCurveC nestedItems (by decide)).2

/-- C4: on an empty container (reachable, with cached value `[]`), the
second of two back-to-back `evalpts` reads runs the recomputation branch
again — the falsy-list cache test makes an empty cached value
indistinguishable from an unpopulated cache, so the second read is not a
cache hit, contrary to the claim that it never recomputes. -/
theorem C4_counterexample :
    (evalptsGet (evalptsGet emptyCurveC).2.1).2.2 = true := by
  decide

/-- C4 (amended): two `evalpts` reads with no intervening mutation
return the same value; the second read skips recomputation whenever that
value is nonempty (an empty value is recomputed, yielding the same
result); and after any successful insertion the read recomputes and
returns the concatenation, in element order, of every current element's
evaluated points. -/
theorem C4_theorem (c : Container) :
    ((evalptsGet (evalptsGet c).2.1).1 = (evalptsGet c).1) ∧
    ((evalptsGet c).1 ≠ [] → (evalptsGet (evalptsGet c).2.1).2.2 = false) ∧
    (∀ a : AddItem, (add c a).2 = none →
      (evalptsGet (add c a).1).1 =
        ((add c a).1.geoms.map SplineGeom.evalpts).flatten ∧
      (evalptsGet (add c a).1).2.2 = true) := by
  refine ⟨evalptsGet_value_stable c, evalptsGet_second_hit c, ?_⟩
  intro a h
  rw [evalptsGet_after_add c a h]
  exact ⟨concatEvalpts_eq_flatten _, rfl⟩

theorem C4_witness :
    ((evalptsGet (evalptsGet oneCurveC).2.1).1 = (evalptsGet oneCurveC).1) ∧
    ((evalptsGet oneCurveC).1 ≠ []) ∧
    ((evalptsGet (evalptsGet oneCurveC).2.1).2.2 = false) ∧
    ((add oneCurveC (AddItem.geom gC2)).2 = none) ∧
    ((evalptsGet (add oneCurveC (AddItem.geom gC2)).1).1 =
      ((add oneCurveC (AddItem.geom gC2)).1.geoms.map SplineGeom.evalpts).flatten) ∧
    ((evalptsGet (add oneCurveC (AddItem.geom gC2)).1).2.2 = true) := by
  obtain ⟨h1, h2, h3⟩ := C4_theorem oneCurveC
  obtain ⟨h4, h5⟩ := h3 (AddItem.geom gC2) (by decide)
  exact ⟨h1, by decide, h2 (by decide), by decide, h4, h5⟩

/-- C5: merging a same-kind container `b` into `a` with `__add__`
raises nothing and behaves as in-place `add(b)` on the receiver: the
returned state is the receiver with `b`'s elements appended (class and
iteration cursor untouched, cache reset), so its length is `n + m`; `b`
itself is only read (the embedding passes it by value, so it cannot be
mutated). -/
theorem C5_theorem (a b : Container) (h : b.ckind = a.ckind) :
    (addOp a b).2 = none ∧
    (addOp a b).1.ckind = a.ckind ∧
    (addOp a b).1.geoms = a.geoms ++ b.geoms ∧
    (addOp a b).1.cache = [] ∧
    (addOp a b).1.iterIndex = a.iterIndex ∧
    lengthC (addOp a b).1 = lengthC a + lengthC b := by
  have hstep : addOp a b = (reset (addGeomList a b.geoms), none) := by
    simp [addOp, add, h]
  rw [hstep]
  refine ⟨rfl, ?_, ?_, rfl, ?_, ?_⟩
  · simp [addGeomList_ckind]
  · simp [addGeomList_geoms]
  · simp [reset, addGeomList_iterIndex]
  · simp [lengthC, addGeomList_geoms]

theorem C5_witness :
    (cB.ckind = cA.ckind) ∧
    (addOp cA cB).2 = none ∧
    (addOp cA cB).1.geoms = cA.geoms ++ cB.geoms ∧
    lengthC (addOp cA cB).1 = 5 := by
  obtain ⟨h1, _, h3, _, _, h6⟩ := C5_theorem cA cB (by decide)
  exact ⟨by decide, h1, h3, by rw [h6]; decide⟩

/-- C6: passing a container of a different concrete class to `add` or
to `__add__` raises `GeomdlError` (the spec's `TypeMismatch`) and
returns the receiver exactly as it was — elements, cache and cursor
included. -/
theorem C6_theorem (a b : Container) (h : b.ckind ≠ a.ckind) :
    add a (AddItem.cont b.ckind b.geoms) = (a, some GErr.typeMismatch) ∧
    addOp a b = (a, some GErr.typeMismatch) := by
  constructor
  · simp [add, h]
  · simp [addOp, h]

theorem C6_witness :
    (sfC.ckind ≠ cA.ckind) ∧
    add cA (AddItem.cont sfC.ckind sfC.geoms) = (cA, some GErr.typeMismatch) ∧
    addOp cA sfC = (cA, some GErr.typeMismatch) := by
  obtain ⟨h1, h2⟩ := C6_theorem cA sfC (by decide)
  exact ⟨by decide, h1, h2⟩

/-- C7: indexing at `len(self)` always raises `IndexError` (the spec's
`OutOfRange`), and indexing at any `i` in `[0, len)` returns the i-th
element of `_geoms` in insertion order. -/
theorem C7_theorem (c : Container) :
    getItem c (lengthC c : Int) = none ∧
    ∀ i : Nat, i < lengthC c →
      getItem c (i : Int) = c.geoms.get? i ∧ c.geoms.get? i ≠ none := by
  constructor
  · exact pyGet_length c.geoms
  · intro i hi
    simp only [lengthC] at hi
    refine ⟨pyGet_nat c.geoms i, ?_⟩
    intro hn
    have := List.get?_eq_none.mp hn
    omega

theorem C7_witness :
    getItem cA (lengthC cA : Int) = none ∧
    0 < lengthC cA ∧
    getItem cA (0 : Int) = cA.geoms.get? 0 ∧
    cA.geoms.get? 0 ≠ none := by
  obtain ⟨h1, h2⟩ := C7_theorem cA
  obtain ⟨h3, h4⟩ := h2 0 (by decide)
  exact ⟨h1, by decide, h3, h4⟩

/-- C8: a full forward traversal (restarted cursor, driven by
`__next__` to `StopIteration`) yields exactly the reverse of what
`__reversed__` yields, and the traversal leaves `_geoms` and the
evalpts cache untouched. -/
theorem C8_theorem (c : Container) :
    (runIter (iterStart c)).1 = (reversedItems c).reverse ∧
    (runIter (iterStart c)).2.geoms = c.geoms ∧
    (runIter (iterStart c)).2.cache = c.cache := by
  obtain ⟨h1, h2, h3, _⟩ := runIter_spec (iterStart c)
  refine ⟨?_, ?_, ?_⟩
  · simpa [iterStart, reversedItems] using h1
  · simpa [iterStart] using h2
  · simpa [iterStart] using h3

/-- C9: the bounding box of a container holding exactly one element is
that element's own bounding box: pooling a single box and taking
per-axis minima of lower bounds and maxima of upper bounds returns the
box itself. -/
theorem C9_theorem (c : Container) (g : SplineGeom) (h : c.geoms = [g]) :
    bbox c = g.bbox := by
  simp [bbox, h, evaluate_bounding_box]

theorem C9_witness :
    singletonC.geoms = [gC1] ∧ bbox singletonC = gC1.bbox := by
  exact ⟨by decide, C9_theorem singletonC gC1 (by decide)⟩

/-- C10: for a container with at least `k ≥ 1` elements, indexing at
`-k` does not raise: Python's negative-index wraparound in
`self._geoms[index]` returns the element at position `len - k`, so `-1`
reads the last element. -/
theorem C10_theorem (c : Container) (k : Nat) (h1 : 1 ≤ k)
    (h2 : k ≤ lengthC c) :
    getItem c (-(k : Int)) = c.geoms.get? (lengthC c - k) ∧
    c.geoms.get? (lengthC c - k) ≠ none := by
  simp only [lengthC] at h2 ⊢
  refine ⟨pyGet_neg c.geoms k h1 h2, ?_⟩
  intro hn
  have := List.get?_eq_none.mp hn
  omega

theorem C10_witness :
    1 ≤ 1 ∧ 1 ≤ lengthC cA ∧
    getItem cA (-(1 : Int)) = cA.geoms.get? (lengthC cA - 1) ∧
    cA.geoms.get? (lengthC cA - 1) ≠ none ∧
    getItem cA (-(1 : Int)) = some gC1 := by
  obtain ⟨h1, h2⟩ := C10_theorem cA 1 (by decide) (by decide)
  exact ⟨by decide, by decide, h1, h2, by decide⟩

end Multi
